import Mathlib

/-!
# Verification of the zenvalid environment binding layer

Shallow embedding of the orchestration core of the `zenvalid` repository:
the specification resolver (`validateSpecs` / `validateSingleSpec` in
`packages/zenvalidate/src/core.ts`), the access-controlled result (the
protective proxy traps of `createProtectiveProxy` and the accessor
installation in `addEnvAccessors`), the entry point `zenv`, the runtime
detector (`runtime.ts`), and the bootstrap generator
(`client-inject.ts` / `getClientEnvScript`).

JS objects whose property order matters are embedded as association
lists in declaration order; `undefined` is the `Value.undefined`
constructor; functions that can throw return `Except`.
-/

namespace Zenvalid

/-- JS runtime values, restricted to what the orchestration layer handles:
strings (raw env values), numbers, booleans, `undefined`, and the string
array stored under `__clientSafePrefixes__`. -/
inductive Value where
  | undefined
  | str (s : String)
  | num (n : Int)
  | bool (b : Bool)
  | strList (l : List String)
deriving DecidableEq, Repr

/-- First binding of `key` in a JS-object-as-association-list, i.e. `obj[key]`
restricted to present keys. -/
def lookup (m : List (String × α)) (key : String) : Option α :=
  match m with
  | [] => none
  | (k, v) :: rest => if k == key then some v else lookup rest key

/-- `key in obj` for an association list. -/
def hasKey (m : List (String × α)) (key : String) : Bool :=
  match m with
  | [] => false
  | (k, _) :: rest => k == key || hasKey rest key

/-- `str.startsWith(prefix)`: literal case-sensitive prefix test, stated on
the character lists. -/
def strStartsWith (s p : String) : Bool := p.data.isPrefixOf s.data

/-- `startsWithAny` from `types/guards.ts`: literal case-sensitive prefix test
against any member of the list. -/
def startsWithAny (s : String) (prefixes : List String) : Bool :=
  prefixes.any (fun p => strStartsWith s p)

/-- The execution-context detector state behind `runtime.ts`: whether a
front-end global (`window`) is present, whether `process` is present, the
backend process environment, and the bootstrap object a previous SSR pass may
have injected into the front-end global scope. -/
structure Runtime where
  hasWindow : Bool
  hasProcess : Bool
  procEnv : List (String × String)
  injected : Option (List (String × Value)) := none
deriving Repr

/-- `runtime.isClient`: true when `window` is defined. -/
def Runtime.isClient (rt : Runtime) : Bool := rt.hasWindow

/-- `runtime.isNode`: true when `process` is defined. -/
def Runtime.isNode (rt : Runtime) : Bool := rt.hasProcess

/-- `runtime.nodeEnv`: `process.env.NODE_ENV` when present and a string,
defaulting to `"production"`. -/
def Runtime.nodeEnv (rt : Runtime) : String :=
  if rt.hasProcess then
    match lookup rt.procEnv "NODE_ENV" with
    | some s => s
    | none => "production"
  else "production"

/-- `runtime.isDevelopment`. -/
def Runtime.isDevelopment (rt : Runtime) : Bool := rt.nodeEnv == "development"

/-- `runtime.isProduction`. -/
def Runtime.isProduction (rt : Runtime) : Bool := rt.nodeEnv == "production"

/-- `runtime.isTest`. -/
def Runtime.isTest (rt : Runtime) : Bool := rt.nodeEnv == "test"

/-- The `onError` policy. `ret` stands for the source's `"return"` policy
(`return` is a Lean keyword). -/
inductive ErrorPolicy where
  | throw
  | exit
  | ret
deriving DecidableEq, Repr

/-- The `onClientAccessError` policy. -/
inductive AccessPolicy where
  | throw
  | warn
  | ignore
deriving DecidableEq, Repr

/-- `runtime.defaultErrorBehavior`: `"exit"` on Node, `"throw"` otherwise. -/
def Runtime.defaultErrorBehavior (rt : Runtime) : ErrorPolicy :=
  if rt.isNode then .exit else .throw

/-- `runtime.defaultClientAccessError`: `"warn"` in development, `"ignore"`
otherwise. -/
def Runtime.defaultClientAccessError (rt : Runtime) : AccessPolicy :=
  if rt.isDevelopment then .warn else .ignore

/-- `runtime.env`: on the client, the injected bootstrap object when present;
otherwise `process.env` when `process` is defined; otherwise `{}`.
The injected values are projected to the string entries a validator can
consume (`window.__ZENV_CLIENT__ as NodeJS.ProcessEnv`). -/
def Runtime.envSource (rt : Runtime) : List (String × String) :=
  if rt.isClient then
    match rt.injected with
    | some m =>
        m.filterMap (fun kv =>
          match kv.2 with
          | .str s => some (kv.1, s)
          | _ => none)
    | none => if rt.hasProcess then rt.procEnv else []
  else if rt.hasProcess then rt.procEnv else []

/-- The nested client configuration of a validator
(`types/options.ts` `ClientConfig`): `expose` is required (guard
`isClientConfig`), the transform is optional, and the client-side
`default` / `devDefault` use JS `undefined` as the absence marker (the proxy
tests them with `!== undefined`). -/
structure ClientConfig where
  expose : Bool
  transform : Option (Value → Value) := none
  default : Value := .undefined
  devDefault : Value := .undefined

/-- Resolution metadata attached to a validator (`SchemaMetadata`): the
client configuration plus the exposure flags the resolver fills in.
An absent `autoExposed` / `serverOnly` field behaves like `false` everywhere
it is read (`?? false`, falsy tests), so both are embedded as plain booleans
defaulting to `false`. -/
structure SchemaMeta where
  client : Option ClientConfig := none
  autoExposed : Bool := false
  serverOnly : Bool := false

/-- One issue of a structured validation failure (`z.ZodIssue` as the core
consumes it: a code, a message, and a path). -/
structure ZodIssue where
  code : String
  message : String
  path : List String
deriving DecidableEq, Repr

/-- A structured validation failure (`z.ZodError`): a list of issues. -/
structure ZodFailure where
  issues : List ZodIssue
deriving DecidableEq, Repr

/-- A leaf validator as the resolver consumes it: the metadata
`getMetadata(schema)` returns (if any was attached), and `schema.parse`
on `string | undefined`, which either produces a value or throws a
structured failure. -/
structure Validator where
  meta : Option SchemaMeta := none
  parse : Option String → Except ZodFailure Value

/-- A spec entry: either a recognized validator (`isZodSchema` true) or
anything else. -/
inductive SpecEntry where
  | schema (v : Validator)
  | invalid

/-- A spec: ordered mapping from variable names to entries. -/
abbrev Spec := List (String × SpecEntry)

/-- The recognized `zenv` options (`ZenvOptions`); `none` on an optional
field is the caller omitting it, so the source's destructuring defaults
apply at the use sites. -/
structure ZenvOptions where
  onError : Option ErrorPolicy := none
  strict : Option Bool := none
  clientSafePrefixes : Option (List String) := none
  serverOnlyPrefixes : Option (List String) := none
  onClientAccessError : Option AccessPolicy := none
  env : Option (List (String × String)) := none

/-- The message of the error thrown for a spec entry that is not a Zod
schema (`core.ts` line 290). -/
def invalidValidatorMsg (key : String) : String :=
  "Invalid validator for \"" ++ key ++ "\": must be a Zod schema"

/-- The `catch` branch of `validateSpecs` for a Zod failure: prefix the
variable name onto each issue path (`[key]` when the path is empty). -/
def enhanceError (key : String) (e : ZodFailure) : ZodFailure :=
  ⟨e.issues.map (fun i =>
    { i with path := if i.path.isEmpty then [key] else key :: i.path })⟩

/-- The `catch` branch of `validateSpecs` for a non-Zod error: a single
custom issue carrying the error message at path `[key]`. -/
def customError (key : String) (msg : String) : ZodFailure :=
  ⟨[⟨"custom", msg, [key]⟩]⟩

/-- The client-side skip test of `validateSpecs` (core.ts lines 294-300):
skip when the key is neither auto-exposed by a `clientSafePrefixes` match
nor explicitly declared `client.expose === true`. `serverOnlyPrefixes` is
not consulted here. -/
def shouldSkipClient (key : String) (v : Validator) (csp : List String) : Bool :=
  let isAutoExposed := csp.length > 0 && startsWithAny key csp
  let isExplicitlyExposed :=
    match v.meta with
    | some m =>
        match m.client with
        | some c => c.expose
        | none => false
    | none => false
  !isAutoExposed && !isExplicitlyExposed

/-- The metadata stored for a key skipped on the client
(`{ ...meta, serverOnly: true }`, spreading `undefined` giving `{}`). -/
def skippedMeta (v : Validator) : SchemaMeta :=
  { v.meta.getD {} with serverOnly := true }

/-- The metadata computed by `validateSingleSpec` (core.ts lines 240-258):
exposure flags from the prefix lists, with a server-only prefix match
forcing `client.expose` to `false`. -/
def mkFinalMeta (key : String) (v : Validator) (opts : ZenvOptions) : SchemaMeta :=
  let csp := opts.clientSafePrefixes.getD []
  let sop := opts.serverOnlyPrefixes.getD []
  let isServerOnly := sop.length > 0 && startsWithAny key sop
  let isAutoExposed := !isServerOnly && (csp.length > 0 && startsWithAny key csp)
  let fm : SchemaMeta :=
    { v.meta.getD {} with autoExposed := isAutoExposed, serverOnly := isServerOnly }
  if isServerOnly then
    match fm.client with
    | some c => { fm with client := some { c with expose := false } }
    | none => fm
  else fm

/-- The output of `validateSpecs`: validated values, per-key metadata, and
the aggregated failures, each in spec declaration order. -/
structure ValidationOutput where
  result : List (String × Value)
  metadata : List (String × SchemaMeta)
  errors : List ZodFailure

/-- `validateSpecs` (core.ts lines 276-339): iterate the spec entries in
declaration order; reject non-schema entries as per-key failures; on the
client skip keys that are neither auto-exposed nor explicitly exposed
(recording `serverOnly` metadata, reading no raw value); otherwise record
the `validateSingleSpec` metadata, read the raw value and run the leaf
validator, collecting a success into `result` or a failure into `errors`. -/
def validateSpecs (rt : Runtime) (specs : Spec) (env : List (String × String))
    (opts : ZenvOptions) : ValidationOutput :=
  match specs with
  | [] => ⟨[], [], []⟩
  | (key, entry) :: rest =>
    let tail := validateSpecs rt rest env opts
    match entry with
    | .invalid =>
        ⟨tail.result, tail.metadata,
          customError key (invalidValidatorMsg key) :: tail.errors⟩
    | .schema v =>
        if rt.isClient && shouldSkipClient key v (opts.clientSafePrefixes.getD []) then
          ⟨tail.result, (key, skippedMeta v) :: tail.metadata, tail.errors⟩
        else
          let rawValue := lookup env key
          let finalMeta := mkFinalMeta key v opts
          match v.parse rawValue with
          | .ok val =>
              ⟨(key, val) :: tail.result, (key, finalMeta) :: tail.metadata, tail.errors⟩
          | .error e =>
              ⟨tail.result, (key, finalMeta) :: tail.metadata,
                enhanceError key e :: tail.errors⟩

/-- The environment object `zenv` hands back: the validated value
properties, the five non-enumerable accessor booleans installed by
`addEnvAccessors` (stored, `value:` descriptors), the optional
non-enumerable `__clientSafePrefixes__` field, and the state the
protective proxy traps close over (`metadata`, the resolved `strict` and
`onClientAccessError` options, and the raw source). -/
structure EnvObject where
  values : List (String × Value)
  isDevelopment : Bool
  isDev : Bool
  isProduction : Bool
  isProd : Bool
  isTest : Bool
  clientSafePrefixes : Option (List String)
  metadata : List (String × SchemaMeta)
  strict : Bool
  onClientAccessError : AccessPolicy
  rawEnv : List (String × String)

/-- The mode string `addEnvAccessors` computes once, at construction:
`env.NODE_ENV ?? rawEnv.NODE_ENV ?? runtime.nodeEnv`, then coerced to a
string (numbers via `toString`, anything else falling back to
`runtime.nodeEnv`). -/
def constructionNodeEnv (result : List (String × Value))
    (rawEnv : List (String × String)) (rt : Runtime) : String :=
  let envNodeEnv := (lookup result "NODE_ENV").getD .undefined
  let nodeEnvValue : Value :=
    match envNodeEnv with
    | .undefined =>
        match lookup rawEnv "NODE_ENV" with
        | some s => .str s
        | none => .str rt.nodeEnv
    | v => v
  match nodeEnvValue with
  | .str s => s
  | .num n => toString n
  | _ => rt.nodeEnv

/-- `addEnvAccessors` followed by the `__clientSafePrefixes__` attachment and
`createProtectiveProxy`: package the resolver output into the returned
environment object. The five booleans are computed here, once, from the
construction-time mode; `strict` and `onClientAccessError` are resolved
against their defaults here as well (the destructuring in
`createProtectiveProxy` runs at proxy creation). -/
def mkEnvObject (rt : Runtime) (out : ValidationOutput) (opts : ZenvOptions)
    (rawEnv : List (String × String)) : EnvObject :=
  let ne := constructionNodeEnv out.result rawEnv rt
  { values := out.result
    isDevelopment := ne == "development"
    isDev := ne == "development"
    isProduction := ne == "production"
    isProd := ne == "production"
    isTest := ne == "test"
    clientSafePrefixes := opts.clientSafePrefixes
    metadata := out.metadata
    strict := opts.strict.getD true
    onClientAccessError := opts.onClientAccessError.getD rt.defaultClientAccessError
    rawEnv := rawEnv }

/-- Properties the `get` trap passes through without checks. -/
def inspectables : List String :=
  ["length", "inspect", "hasOwnProperty", "toJSON", "asymmetricMatch",
   "nodeType", "$$typeof", "then", "__esModule", "__clientSafePrefixes__"]

/-- The five accessor properties that are always readable. -/
def accessorProps : List String :=
  ["isDevelopment", "isDev", "isProduction", "isProd", "isTest"]

/-- Direct object access `target[prop]` on the wrapped environment object
(no trap logic): accessor booleans, the retained prefix list, or a stored
value property, with `undefined` for anything absent. -/
def targetGet (st : EnvObject) (prop : String) : Value :=
  if prop == "isDevelopment" then .bool st.isDevelopment
  else if prop == "isDev" then .bool st.isDev
  else if prop == "isProduction" then .bool st.isProduction
  else if prop == "isProd" then .bool st.isProd
  else if prop == "isTest" then .bool st.isTest
  else if prop == "__clientSafePrefixes__" then
    match st.clientSafePrefixes with
    | some ps => .strList ps
    | none => .undefined
  else (lookup st.values prop).getD .undefined

/-- `prop in target` for the wrapped environment object, restricted to its
own properties (the resolved value keys — present even when the resolved
value is `undefined` —, the five accessors, and the retained prefix list
when attached); inherited `Object.prototype` members are not modelled, and
no claim reads one. -/
def propExists (st : EnvObject) (prop : String) : Bool :=
  hasKey st.values prop || accessorProps.contains prop ||
    (prop == "__clientSafePrefixes__" && st.clientSafePrefixes.isSome)

/-- The errors the `get` trap can throw. -/
inductive GetErr where
  | refNotFound (prop : String)
  | clientAccess (prop : String)
deriving DecidableEq, Repr

instance : DecidableEq (Except GetErr Value) :=
  fun a b =>
    match a, b with
    | .ok x, .ok y =>
        if h : x = y then .isTrue (by rw [h])
        else .isFalse (by intro hh; cases hh; exact h rfl)
    | .error x, .error y =>
        if h : x = y then .isTrue (by rw [h])
        else .isFalse (by intro hh; cases hh; exact h rfl)
    | .ok _, .error _ => .isFalse (by intro hh; cases hh)
    | .error _, .ok _ => .isFalse (by intro hh; cases hh)

/-- The observable outcome of one proxied read: the returned value or the
thrown error, whether the configured client transform ran, and whether the
development warning for a client access violation was logged. -/
structure GetOutcome where
  result : Except GetErr Value
  transformCalled : Bool
  warned : Bool
deriving DecidableEq, Repr

/-- The second-stage client default substitution of the `get` trap
(core.ts lines 125-141): start from `target[prop]` (or `undefined` when the
property does not exist), and when the raw source did not literally contain
the key and a client config exists, substitute the client `devDefault` in
development, else the client `default`, whichever is not `undefined`. -/
def clientSubstituted (st : EnvObject) (rt : Runtime) (prop : String) : Value :=
  let value := if propExists st prop then targetGet st prop else .undefined
  let wasExplicitlySet := hasKey st.rawEnv prop
  match (lookup st.metadata prop).bind (fun m => m.client) with
  | none => value
  | some c =>
      if !wasExplicitlySet then
        if rt.isDevelopment && c.devDefault != .undefined then c.devDefault
        else if c.default != .undefined then c.default
        else value
      else value

/-- The read-time exposure check of the `get` trap (core.ts lines 108-112):
`meta?.serverOnly ?? false` forbids, else `meta?.client?.expose ??
meta?.autoExposed` must be truthy. -/
def readExposed (st : EnvObject) (prop : String) : Bool :=
  let meta := lookup st.metadata prop
  let isServerOnly := (meta.map (fun m => m.serverOnly)).getD false
  !isServerOnly &&
    (match meta with
     | none => false
     | some m =>
         match m.client with
         | some c => c.expose
         | none => m.autoExposed)

/-- The `get` trap of the protective proxy (core.ts lines 86-151), with the
runtime passed in because `runtime.isClient` / `runtime.isDevelopment` are
read at read time. -/
def proxyGet (st : EnvObject) (rt : Runtime) (prop : String) : GetOutcome :=
  if inspectables.contains prop then
    ⟨.ok (targetGet st prop), false, false⟩
  else if accessorProps.contains prop then
    ⟨.ok (targetGet st prop), false, false⟩
  else if !propExists st prop && st.strict then
    ⟨.error (.refNotFound prop), false, false⟩
  else if rt.isClient then
    if !readExposed st prop then
      match st.onClientAccessError with
      | .throw => ⟨.error (.clientAccess prop), false, false⟩
      | .warn => ⟨.ok .undefined, false, rt.isDevelopment⟩
      | .ignore => ⟨.ok .undefined, false, false⟩
    else
      let value := clientSubstituted st rt prop
      match (lookup st.metadata prop).bind (fun m => m.client) |>.bind (fun c => c.transform) with
      | some f => if value != .undefined then ⟨.ok (f value), true, false⟩ else ⟨.ok value, false, false⟩
      | none => ⟨.ok value, false, false⟩
  else
    ⟨.ok (targetGet st prop), false, false⟩

/-- The `set` trap: unconditionally throw a mutation `TypeError` naming the
property; the trap ignores the target, the value and every option. -/
def proxySet (_st : EnvObject) (prop : String) (_v : Value) : Except String Unit :=
  .error ("[zenv] Attempt to mutate environment value: " ++ prop)

/-- The `defineProperty` trap: unconditionally throw a `TypeError` naming
the property. -/
def proxyDefineProperty (_st : EnvObject) (prop : String) : Except String Unit :=
  .error ("[zenv] Attempt to define property on environment: " ++ prop)

/-- The `deleteProperty` trap: report success (`true`) while leaving the
target untouched. -/
def proxyDeleteProperty (st : EnvObject) (_prop : String) : Bool × EnvObject :=
  (true, st)

/-- `Reflect.ownKeys(target)` as forwarded by the `ownKeys` trap: all own
properties, enumerable or not (value keys, then the five accessors, then
the retained prefix list when attached). -/
def ownPropertyNames (st : EnvObject) : List String :=
  st.values.map (fun kv => kv.1) ++ accessorProps ++
    (if st.clientSafePrefixes.isSome then ["__clientSafePrefixes__"] else [])

/-- `Object.keys(env)`: the own enumerable properties — exactly the resolved
value keys, since the accessors and `__clientSafePrefixes__` are installed
non-enumerable and `getOwnPropertyDescriptor` forwards real descriptors. -/
def enumerableKeys (st : EnvObject) : List String :=
  st.values.map (fun kv => kv.1)

/-- The observable outcome of a `zenv` call. -/
inductive ZenvOutcome where
  | thrown (msg : String) (errors : List ZodFailure)
  | exited (code : Nat)
  | returned (env : EnvObject)

/-- The entry point `zenv` (core.ts lines 410-461): resolve the option
defaults, run `validateSpecs`, and on failures apply the error policy —
`throw` raises one composite error carrying every failure, `exit` terminates
on Node, `return` (and an `exit` request off Node, which falls through)
still hands back the protected partial environment. -/
def zenv (rt : Runtime) (specs : Spec) (opts : ZenvOptions) : ZenvOutcome :=
  let onError := opts.onError.getD rt.defaultErrorBehavior
  let env := opts.env.getD rt.envSource
  let out := validateSpecs rt specs env opts
  if out.errors.length > 0 then
    if onError == .throw then
      .thrown "Environment validation failed" out.errors
    else if onError == .exit && rt.isNode then
      .exited 1
    else
      .returned (mkEnvObject rt out opts env)
  else
    .returned (mkEnvObject rt out opts env)

/-! ## Bootstrap generator (`client-inject.ts`) -/

/-- The nine characters of the guarded sequence, lower-cased. -/
def scriptTagLower : List Char := "</script>".data

/-- Case-insensitive prefix test on character lists (the pattern is given
lower-cased). -/
def startsWithCI (l : List Char) (pat : List Char) : Bool :=
  match pat with
  | [] => true
  | p :: ps =>
      match l with
      | [] => false
      | c :: cs => c.toLower == p && startsWithCI cs ps

/-- `jsonStr.replace(/<\/script>/gi, (m) => m.replace("/", "\\/"))`: a
left-to-right non-overlapping scan; each case-insensitive match of
`</script>` has its (first, only) `/` replaced by `\/`, keeping the match's
original letter casing. The scan consumes at least one character per step,
so the structural `fuel` counter (instantiated with the input length) never
runs out; the fuel only makes the recursion structural. -/
def escapeAuxF (fuel : Nat) (l : List Char) : List Char :=
  match fuel, l with
  | 0, l => l
  | _ + 1, [] => []
  | fuel + 1, c :: rest =>
      if startsWithCI (c :: rest) scriptTagLower then
        ('<' :: '\\' :: '/' :: ((c :: rest).take 9).drop 2) ++
          escapeAuxF fuel ((c :: rest).drop 9)
      else
        c :: escapeAuxF fuel rest

/-- The scan at adequate fuel. -/
def escapeAux (l : List Char) : List Char := escapeAuxF l.length l

/-- The `</script>` escaping applied to the serialized JSON. -/
def escapeScriptTags (s : String) : String := ⟨escapeAux s.data⟩

/-- `JSON.stringify` escaping of one character inside a string literal. -/
def jsonEscChar (c : Char) : List Char :=
  if c == '"' then ['\\', '"']
  else if c == '\\' then ['\\', '\\']
  else if c == '\n' then ['\\', 'n']
  else if c == '\r' then ['\\', 'r']
  else if c == '\t' then ['\\', 't']
  else [c]

/-- A JSON string literal. -/
def jsonQuote (s : String) : String :=
  "\"" ++ ⟨(s.data.map jsonEscChar).flatten⟩ ++ "\""

/-- `JSON.stringify` of one value; `none` for `undefined`, which
`JSON.stringify` drops from object literals. -/
def jsonValue : Value → Option String
  | .undefined => none
  | .str s => some (jsonQuote s)
  | .num n => some (toString n)
  | .bool b => some (if b then "true" else "false")
  | .strList l => some ("[" ++ String.intercalate "," (l.map jsonQuote) ++ "]")

/-- `JSON.stringify` of an object, properties in insertion order. -/
def jsonStringifyObj (m : List (String × Value)) : String :=
  "\x7b" ++ String.intercalate ","
    (m.filterMap (fun kv =>
      (jsonValue kv.2).map (fun jv => jsonQuote kv.1 ++ ":" ++ jv))) ++ "\x7d"

/-- `getClientEnvScript` (client-inject.ts lines 34-77). On the front end:
re-serialize a previously injected bootstrap object, else the empty string.
On the backend: take the explicit prefix list, else the retained
`__clientSafePrefixes__`, else `[]`; keep the enumerable keys matching a
prefix whose (proxied) value is defined; serialize, escape `</script>`, and
emit the single assignment statement. -/
def getClientEnvScript (rt : Runtime) (env : EnvObject)
    (clientSafePrefixes : Option (List String)) : String :=
  if rt.isClient then
    match rt.injected with
    | some m => "window.__ZENV_CLIENT__ = " ++ escapeScriptTags (jsonStringifyObj m) ++ ";"
    | none => ""
  else
    let prefixes :=
      match clientSafePrefixes with
      | some ps => ps
      | none => env.clientSafePrefixes.getD []
    let clientEnv := (enumerableKeys env).filterMap (fun k =>
      if prefixes.length > 0 && prefixes.any (fun p => strStartsWith k p) then
        match (proxyGet env rt k).result with
        | .ok v => if v != .undefined then some (k, v) else none
        | .error _ => none
      else none)
    "window.__ZENV_CLIENT__ = " ++ escapeScriptTags (jsonStringifyObj clientEnv) ++ ";"

/-! ## Substring occurrence helpers -/

/-- Whether `pat` occurs as a contiguous sublist of `l`. -/
def listContains (l pat : List Char) : Bool :=
  pat.isPrefixOf l ||
    match l with
    | [] => false
    | _ :: rest => listContains rest pat

/-- Whether `pat` occurs as a substring of `s`. -/
def strContains (s pat : String) : Bool := listContains s.data pat.data

/-- Case-insensitive substring occurrence. -/
def strContainsCI (s pat : String) : Bool :=
  listContains (s.data.map Char.toLower) (pat.data.map Char.toLower)

/-! ## Default-variant resolution (spec-modelled)

The validator factory module (`validators.ts`, with `str`/`num`/`bool`,
`makeValidator` and the base default-variant application inside
`schema.parse`) is not among the sources; only its tests
(`unnamed/part_004`, `unnamed/part_005`) and its callers are. The
resolution of the base/dev/test default variants is therefore modelled
from the spec. -/

/-- Modelled from the spec: a default variant declaration is tri-state —
not declared at all, declared with the absence marker `undefined`
("declared-but-absent ... still wins"), or declared with a value. -/
inductive DefaultDecl where
  | unset
  | declaredUndefined
  | declared (v : String)
deriving DecidableEq, Repr

/-- Modelled from the spec: the three default variants a key may declare. -/
structure DefaultVariants where
  base : DefaultDecl := .unset
  devDefault : DefaultDecl := .unset
  testDefault : DefaultDecl := .unset
deriving DecidableEq, Repr

/-- What a key's input resolves to before the leaf predicate runs. -/
inductive ResolvedInput where
  | value (s : String)
  | absentOk
  | missing
deriving DecidableEq, Repr

/-- The value of a declared variant (only applied to declared variants). -/
def DefaultDecl.use : DefaultDecl → ResolvedInput
  | .unset => .missing
  | .declaredUndefined => .absentOk
  | .declared v => .value v

/-- Modelled from the spec (§3 invariants, §8): explicit raw value present
in the source wins verbatim; else, in development (test) mode a *declared*
`devDefault` (`testDefault`) wins, even when declared `undefined`; else the
declared base `default`; else the key is absent. -/
def resolveWithDefaults (raw : Option String) (dv : DefaultVariants)
    (nodeEnv : String) : ResolvedInput :=
  match raw with
  | some v => .value v
  | none =>
      if nodeEnv == "development" && dv.devDefault != .unset then dv.devDefault.use
      else if nodeEnv == "test" && dv.testDefault != .unset then dv.testDefault.use
      else dv.base.use

/-- Modelled from the spec: `str(...)` with default variants, as a parse on
`string | undefined` — a resolved value passes through, a declared-absent
resolution yields `undefined` without failure, and an absent required value
is a missing-variable failure. -/
def strParseModel (dv : DefaultVariants) (nodeEnv : String)
    (raw : Option String) : Except ZodFailure Value :=
  match resolveWithDefaults raw dv nodeEnv with
  | .value s => .ok (.str s)
  | .absentOk => .ok .undefined
  | .missing => .error ⟨[⟨"invalid_type", "Required", []⟩]⟩

/-! ## Per-key decomposition of the resolver -/

/-- The value `validateSpecs` records for a single spec entry, in isolation
from every other entry. -/
def perKeyValue (rt : Runtime) (env : List (String × String)) (opts : ZenvOptions)
    (ke : String × SpecEntry) : Option (String × Value) :=
  match ke.2 with
  | .invalid => none
  | .schema v =>
      if rt.isClient && shouldSkipClient ke.1 v (opts.clientSafePrefixes.getD []) then none
      else
        match v.parse (lookup env ke.1) with
        | .ok val => some (ke.1, val)
        | .error _ => none

/-- The metadata entry `validateSpecs` records for a single spec entry, in
isolation from every other entry. -/
def perKeyMeta (rt : Runtime) (opts : ZenvOptions)
    (ke : String × SpecEntry) : Option (String × SchemaMeta) :=
  match ke.2 with
  | .invalid => none
  | .schema v =>
      if rt.isClient && shouldSkipClient ke.1 v (opts.clientSafePrefixes.getD []) then
        some (ke.1, skippedMeta v)
      else some (ke.1, mkFinalMeta ke.1 v opts)

/-- The failure record `validateSpecs` collects for a single spec entry, in
isolation from every other entry. -/
def perKeyError (rt : Runtime) (env : List (String × String)) (opts : ZenvOptions)
    (ke : String × SpecEntry) : Option ZodFailure :=
  match ke.2 with
  | .invalid => some (customError ke.1 (invalidValidatorMsg ke.1))
  | .schema v =>
      if rt.isClient && shouldSkipClient ke.1 v (opts.clientSafePrefixes.getD []) then none
      else
        match v.parse (lookup env ke.1) with
        | .ok _ => none
        | .error e => some (enhanceError ke.1 e)

/-- The spec's effective-exposure formula (§4.3 step 2), stated in the
spec's words for comparison with the resolver's actual skip decision:
`serverOnly = matches(key, serverOnlyPrefixes)`,
`autoExposed = !serverOnly && matches(key, clientSafePrefixes)`,
effective exposure `= !serverOnly && (autoExposed || clientConfig.expose
=== true)`. -/
def specEffectiveExposure (key : String) (v : Validator)
    (csp sop : List String) : Bool :=
  let serverOnly := startsWithAny key sop
  let autoExposed := !serverOnly && startsWithAny key csp
  let explicitExpose :=
    match v.meta with
    | some m =>
        match m.client with
        | some c => c.expose
        | none => false
    | none => false
  !serverOnly && (autoExposed || explicitExpose)

/-! ## Concrete fixtures -/

/-- A backend Node runtime with an empty process environment
(mode defaults to production). -/
def rtServer : Runtime := { hasWindow := false, hasProcess := true, procEnv := [] }

/-- A front-end runtime: `window` present, no `process`. -/
def rtClient : Runtime := { hasWindow := true, hasProcess := false, procEnv := [] }

/-- A backend runtime in development mode. -/
def rtDevServer : Runtime :=
  { hasWindow := false, hasProcess := true, procEnv := [("NODE_ENV", "development")] }

/-- A backend runtime in production mode. -/
def rtProdServer : Runtime :=
  { hasWindow := false, hasProcess := true, procEnv := [("NODE_ENV", "production")] }

/-- The `str()` leaf with no attached metadata: a present raw string passes
through, an undefined input raises one `invalid_type` issue. -/
def strRequired : Validator :=
  { parse := fun raw =>
      match raw with
      | some s => .ok (.str s)
      | none => .error ⟨[⟨"invalid_type", "Required", []⟩]⟩ }

/-! ## Helper lemmas -/

theorem isPrefixOf_self (l : List Char) : l.isPrefixOf l = true := by
  induction l with
  | nil => rfl
  | cons c cs ih => simp [List.isPrefixOf, ih]

theorem listContains_self (l : List Char) : listContains l l = true := by
  cases l <;> simp [listContains, isPrefixOf_self]

theorem listContains_append_self (a b : List Char) :
    listContains (a ++ b) b = true := by
  induction a with
  | nil => simpa using listContains_self b
  | cons c cs ih => simp [listContains, ih]

theorem strContains_append_self (a p : String) :
    strContains (a ++ p) p = true := by
  simpa [strContains] using listContains_append_self a.data p.data

/-! ## Claims -/

/-- C1: default precedence of the backend resolution, for every key: a raw
value present in the source is handed to the validator verbatim and every
declared default is ignored; otherwise a `devDefault` (`testDefault`)
variant *declared* for a development (test) mode wins — even when declared
with the absence marker, which resolves the key as absent without failure;
otherwise the base default applies; otherwise the key is absent, a
missing-variable failure when the validator requires a value.
(Spec-modelled: the validator factory is not among the sources.) -/
theorem c1_default_precedence (dv : DefaultVariants) (nodeEnv : String)
    (raw : Option String) :
    (∀ v, raw = some v → strParseModel dv nodeEnv raw = .ok (.str v)) ∧
    (raw = none → nodeEnv = "development" → dv.devDefault ≠ .unset →
      resolveWithDefaults raw dv nodeEnv = dv.devDefault.use) ∧
    (raw = none → nodeEnv = "test" → dv.testDefault ≠ .unset →
      resolveWithDefaults raw dv nodeEnv = dv.testDefault.use) ∧
    (raw = none → nodeEnv = "development" → dv.devDefault = .declaredUndefined →
      strParseModel dv nodeEnv raw = .ok .undefined) ∧
    (raw = none → (nodeEnv = "development" → dv.devDefault = .unset) →
      (nodeEnv = "test" → dv.testDefault = .unset) →
      resolveWithDefaults raw dv nodeEnv = dv.base.use) ∧
    (strParseModel dv nodeEnv raw = .error ⟨[⟨"invalid_type", "Required", []⟩]⟩ ↔
      resolveWithDefaults raw dv nodeEnv = .missing) := by
  refine ⟨?_, ?_, ?_, ?_, ?_, ?_⟩
  · intro v hv
    subst hv
    simp [strParseModel, resolveWithDefaults]
  · intro hraw hne hd
    subst hraw; subst hne
    cases h : dv.devDefault
    all_goals try exact absurd h hd
    all_goals simp [resolveWithDefaults, h]
  · intro hraw hne hd
    subst hraw; subst hne
    cases h : dv.devDefault <;> cases h2 : dv.testDefault
    all_goals try exact absurd h2 hd
    all_goals simp [resolveWithDefaults, h, h2]
  · intro hraw hne hd
    subst hraw; subst hne
    simp [strParseModel, resolveWithDefaults, hd, DefaultDecl.use]
  · intro hraw hdev htest
    subst hraw
    by_cases hd : nodeEnv = "development"
    · simp [resolveWithDefaults, hd, hdev hd]
    · by_cases ht : nodeEnv = "test"
      · simp [resolveWithDefaults, hd, ht, htest ht]
      · simp [resolveWithDefaults, hd, ht]
  · cases r : resolveWithDefaults raw dv nodeEnv <;> simp [strParseModel, r]

/-- Witness for C1: spec scenario 3 — `LOG_LEVEL` with base `"info"`,
dev `"debug"`, test `"error"`, mode `"test"`, empty source resolves to
`"error"`; and a `devDefault` declared `undefined` in development resolves
without failure. -/
theorem c1_default_precedence_witness :
    resolveWithDefaults none
      ⟨.declared "info", .declared "debug", .declared "error"⟩ "test" =
        .value "error" ∧
    strParseModel ⟨.unset, .declaredUndefined, .unset⟩ "development" none =
      .ok .undefined :=
  ⟨((c1_default_precedence ⟨.declared "info", .declared "debug", .declared "error"⟩
      "test" none).2.2.1 rfl rfl (by decide)).trans rfl,
   (c1_default_precedence ⟨.unset, .declaredUndefined, .unset⟩
      "development" none).2.2.2.1 rfl rfl rfl⟩

/-- C2 fixture: front-end context, spec `{SECRET: required-string}`, no
safe prefixes, `onClientAccessError = "ignore"`, every other option at its
default. -/
def c2opts : ZenvOptions := { onClientAccessError := some .ignore }

/-- C2 fixture: the spec `{SECRET: required-string}`. -/
def c2specs : Spec := [("SECRET", .schema strRequired)]

/-- C2 fixture: the environment object `zenv` returns in that scenario
(the front-end raw source is empty). -/
def c2env : EnvObject :=
  mkEnvObject rtClient (validateSpecs rtClient c2specs [] c2opts) c2opts []

/-- C2: in that scenario resolution indeed records no failure for `SECRET`,
never invokes its validator and never reads its raw value (a required
validator invoked on the absent raw value would have produced a failure,
and `errors` is empty), and metadata marks it server-only — but the
subsequent read of `SECRET` does *not* return `undefined`: the strict
missing-property check of the `get` trap runs before the client-exposure
branch, and the skipped key is absent from the validated object, so the
read throws `ReferenceError: [zenv] Environment variable not found:
SECRET`. The repository's own tests
(`core-client-side.test.ts`, reads of skipped server-only keys under
default `strict`) expect `undefined`. -/
theorem c2_skip_then_strict_read_throws :
    (validateSpecs rtClient c2specs [] c2opts).errors = [] ∧
    lookup (validateSpecs rtClient c2specs [] c2opts).result "SECRET" = none ∧
    ((lookup (validateSpecs rtClient c2specs [] c2opts).metadata "SECRET").map
      (fun m => m.serverOnly)) = some true ∧
    zenv rtClient c2specs c2opts = .returned c2env ∧
    proxyGet c2env rtClient "SECRET" =
      ⟨.error (.refNotFound "SECRET"), false, false⟩ :=
  ⟨rfl, rfl, rfl, rfl, by decide⟩

/-- C5: for every returned environment and every property name, the `set`
and `defineProperty` traps always throw a mutation error whose message
contains the property name — no option suppresses this, as the traps ignore
the entire environment state — while the `deleteProperty` trap reports
success, removes nothing, and leaves every key readable and enumerable. -/
theorem c5_mutation_traps (st : EnvObject) (p : String) (v : Value) :
    proxySet st p v =
      .error ("[zenv] Attempt to mutate environment value: " ++ p) ∧
    strContains ("[zenv] Attempt to mutate environment value: " ++ p) p = true ∧
    proxyDefineProperty st p =
      .error ("[zenv] Attempt to define property on environment: " ++ p) ∧
    strContains ("[zenv] Attempt to define property on environment: " ++ p) p = true ∧
    proxyDeleteProperty st p = (true, st) ∧
    enumerableKeys (proxyDeleteProperty st p).2 = enumerableKeys st ∧
    ownPropertyNames (proxyDeleteProperty st p).2 = ownPropertyNames st ∧
    (∀ rt k, proxyGet (proxyDeleteProperty st p).2 rt k = proxyGet st rt k) :=
  ⟨rfl, strContains_append_self _ p, rfl, strContains_append_self _ p,
   rfl, rfl, rfl, fun _ _ => rfl⟩

/-- C7 fixture: a spec whose single entry is not a recognized validator. -/
def c7specs : Spec := [("FOO", .invalid)]

/-- C7 counterexample: a spec key whose entry is not a recognized validator
receives a per-key failure record but *no* metadata entry — the
`Invalid validator` error is thrown before `validateSingleSpec` reaches
`metadata.set`, so the claim's "regardless of the validation outcome"
fails for unrecognized entries. -/
theorem c7_counterexample :
    lookup (validateSpecs rtServer c7specs [] {}).metadata "FOO" = none ∧
    (validateSpecs rtServer c7specs [] {}).errors =
      [customError "FOO" (invalidValidatorMsg "FOO")] :=
  ⟨rfl, rfl⟩

theorem scriptTagLower_eq :
    scriptTagLower = ['<', '/', 's', 'c', 'r', 'i', 'p', 't', '>'] := by decide

theorem listContains_cons (x : Char) (t pat : List Char) :
    listContains (x :: t) pat = (pat.isPrefixOf (x :: t) || listContains t pat) := rfl

/-- `startsWithCI` is the boolean prefix test on the lower-cased list. -/
theorem startsWithCI_eq_isPrefixOf (pat : List Char) :
    ∀ l, startsWithCI l pat = pat.isPrefixOf (l.map Char.toLower) := by
  induction pat with
  | nil => intro l; simp [startsWithCI]
  | cons p ps ih =>
      intro l
      cases l with
      | nil => rfl
      | cons c cs =>
          rw [List.map_cons, List.isPrefixOf_cons₂]
          show (c.toLower == p && startsWithCI cs ps) = _
          rw [ih cs]
          by_cases h : c.toLower = p
          · rw [h]
          · have h1 : (c.toLower == p) = false := by simp [h]
            have h2 : (p == c.toLower) = false := by simp [Ne.symm h]
            rw [h1, h2]

/-- The escaping scan never manufactures a new prefix out of characters it
rewrites: a lower-cased pattern free of `<` and `\` that prefixes the
scan's output already prefixes the lower-cased input. -/
theorem escapeAuxF_prefix_reflect :
    ∀ q : List Char, (∀ ch ∈ q, ch ≠ '<' ∧ ch ≠ '\\') →
      ∀ fuel m, q.isPrefixOf ((escapeAuxF fuel m).map Char.toLower) = true →
        q.isPrefixOf (m.map Char.toLower) = true := by
  intro q
  induction q with
  | nil => intro _ fuel m _; simp
  | cons qh qt ih =>
      intro hq fuel m hpre
      cases fuel with
      | zero => exact hpre
      | succ fuel =>
          cases m with
          | nil => exact hpre
          | cons c rest =>
              by_cases hA : startsWithCI (c :: rest) scriptTagLower = true
              · rw [show escapeAuxF (fuel + 1) (c :: rest) =
                    ('<' :: '\\' :: '/' :: ((c :: rest).take 9).drop 2) ++
                      escapeAuxF fuel ((c :: rest).drop 9) from by
                  simp [escapeAuxF, hA]] at hpre
                rw [List.cons_append, List.map_cons, List.isPrefixOf_cons₂] at hpre
                simp only [Bool.and_eq_true, beq_iff_eq] at hpre
                have hqh : qh = '<' := by rw [hpre.1]; decide
                exact absurd hqh (hq qh (List.mem_cons_self qh qt)).1
              · rw [show escapeAuxF (fuel + 1) (c :: rest) =
                    c :: escapeAuxF fuel rest from by simp [escapeAuxF, hA]] at hpre
                rw [List.map_cons, List.isPrefixOf_cons₂] at hpre
                rw [List.map_cons, List.isPrefixOf_cons₂]
                simp only [Bool.and_eq_true] at hpre
                simp only [Bool.and_eq_true]
                have hqt : ∀ ch ∈ qt, ch ≠ '<' ∧ ch ≠ '\\' := fun ch hch =>
                  hq ch (List.mem_cons_of_mem qh hch)
                exact ⟨hpre.1, ih hqt fuel rest hpre.2⟩

/-- After the escaping scan, at adequate fuel, the output contains no
case-insensitive occurrence of `</script>`. -/
theorem escapeAuxF_no_tag (fuel : Nat) : ∀ l : List Char, l.length ≤ fuel →
    listContains ((escapeAuxF fuel l).map Char.toLower) scriptTagLower = false := by
  induction fuel with
  | zero =>
      intro l hl
      have hnil : l = [] := List.eq_nil_of_length_eq_zero (Nat.le_zero.mp hl)
      subst hnil
      decide
  | succ fuel ih =>
      intro l hl
      cases l with
      | nil =>
          rw [show escapeAuxF (fuel + 1) ([] : List Char) = [] from rfl]
          decide
      | cons c rest =>
          by_cases hA : startsWithCI (c :: rest) scriptTagLower = true
          · have hm : ((c :: rest).take 9).map Char.toLower = scriptTagLower := by
              have hpre : scriptTagLower.isPrefixOf ((c :: rest).map Char.toLower) = true := by
                rw [← startsWithCI_eq_isPrefixOf]; exact hA
              have htake : scriptTagLower =
                  ((c :: rest).map Char.toLower).take scriptTagLower.length :=
                List.prefix_iff_eq_take.mp (List.isPrefixOf_iff_prefix.mp hpre)
              rw [show scriptTagLower.length = 9 from by decide] at htake
              rw [List.map_take]
              exact htake.symm
            have hdrop2 : (((c :: rest).take 9).drop 2).map Char.toLower =
                ['s', 'c', 'r', 'i', 'p', 't', '>'] := by
              rw [List.map_drop, hm, scriptTagLower_eq]
              rfl
            have hl' : rest.length + 1 ≤ fuel + 1 := by simpa using hl
            have hT := ih ((c :: rest).drop 9) (by
              simp only [List.length_drop, List.length_cons]
              omega)
            have hout : (escapeAuxF (fuel + 1) (c :: rest)).map Char.toLower =
                '<' :: '\\' :: '/' :: 's' :: 'c' :: 'r' :: 'i' :: 'p' :: 't' :: '>' ::
                  (escapeAuxF fuel ((c :: rest).drop 9)).map Char.toLower := by
              rw [show escapeAuxF (fuel + 1) (c :: rest) =
                  ('<' :: '\\' :: '/' :: ((c :: rest).take 9).drop 2) ++
                    escapeAuxF fuel ((c :: rest).drop 9) from by simp [escapeAuxF, hA]]
              rw [List.map_append]
              simp only [List.map_cons, List.cons_append]
              rw [hdrop2]
              rfl
            rw [hout]
            exact hT
          · have hT := ih rest (by
              simp only [List.length_cons] at hl
              omega)
            rw [show escapeAuxF (fuel + 1) (c :: rest) =
                c :: escapeAuxF fuel rest from by simp [escapeAuxF, hA]]
            rw [List.map_cons, listContains_cons, hT, Bool.or_false]
            cases hp : scriptTagLower.isPrefixOf
                (c.toLower :: (escapeAuxF fuel rest).map Char.toLower) with
            | false => rfl
            | true =>
                exfalso
                rw [scriptTagLower_eq, List.isPrefixOf_cons₂] at hp
                simp only [Bool.and_eq_true] at hp
                obtain ⟨h1, h2⟩ := hp
                have h1' : c.toLower = '<' := (eq_of_beq h1).symm
                have hrefl := escapeAuxF_prefix_reflect
                  ['/', 's', 'c', 'r', 'i', 'p', 't', '>'] (by decide) fuel rest h2
                have hsw : startsWithCI rest ['/', 's', 'c', 'r', 'i', 'p', 't', '>'] = true := by
                  rw [startsWithCI_eq_isPrefixOf]; exact hrefl
                have : startsWithCI (c :: rest) scriptTagLower = true := by
                  rw [scriptTagLower_eq]
                  show (c.toLower == '<' && startsWithCI rest
                    ['/', 's', 'c', 'r', 'i', 'p', 't', '>']) = true
                  rw [h1', hsw]
                  rfl
                exact hA this

/-- No case-insensitive occurrence of `</script>` survives the escaping. -/
theorem escapeScriptTags_no_tag (s : String) :
    strContainsCI (escapeScriptTags s) "</script>" = false := by
  have h := escapeAuxF_no_tag s.data.length s.data (Nat.le_refl _)
  have hpat : "</script>".data.map Char.toLower = scriptTagLower := by decide
  simpa [strContainsCI, escapeScriptTags, escapeAux, hpat] using h

/-- C8 fixture: backend resolution of `{PUBLIC_X, SECRET}` from the raw
source `{PUBLIC_X: "v", SECRET: "s"}`. -/
def c8raw : List (String × String) := [("PUBLIC_X", "v"), ("SECRET", "s")]

/-- C8 fixture: the spec for the two keys. -/
def c8specs : Spec := [("PUBLIC_X", .schema strRequired), ("SECRET", .schema strRequired)]

/-- C8 fixture: the options, with the raw source supplied explicitly. -/
def c8opts : ZenvOptions := { env := some c8raw }

/-- C8 fixture: the resolved environment object. -/
def c8env : EnvObject :=
  mkEnvObject rtServer (validateSpecs rtServer c8specs c8raw c8opts) c8opts c8raw

/-- C8 fixture: the generated bootstrap script for prefix list `["PUBLIC_"]`. -/
def c8script : String := getClientEnvScript rtServer c8env (some ["PUBLIC_"])

/-- C8: on the backend, the bootstrap generator applied to the resolved
environment `{PUBLIC_X: "v", SECRET: "s"}` with prefixes `["PUBLIC_"]`
returns exactly `window.__ZENV_CLIENT__ = {"PUBLIC_X":"v"};` — only the
prefix-matching pair appears, the output contains no occurrence of
`SECRET` or of `s` — and the escaping step rewrites every
case-insensitive occurrence of the literal `</script>` in a serialized
JSON string (shown on a serialized value containing `</script>` and on
mixed casings), so that no escaped output ever contains a
case-insensitive `</script>` that could terminate the surrounding script
tag. -/
theorem c8_bootstrap_script :
    zenv rtServer c8specs c8opts = .returned c8env ∧
    c8script = "window.__ZENV_CLIENT__ = \x7b\"PUBLIC_X\":\"v\"\x7d;" ∧
    strContains c8script "SECRET" = false ∧
    strContains c8script "s" = false ∧
    escapeScriptTags (jsonStringifyObj [("K", .str "</script>")]) =
      "\x7b\"K\":\"<\\/script>\"\x7d" ∧
    escapeScriptTags "a</ScRiPt>b</SCRIPT>" = "a<\\/ScRiPt>b<\\/SCRIPT>" ∧
    (∀ s, strContainsCI (escapeScriptTags s) "</script>" = false) :=
  ⟨rfl, by decide, by decide, by decide, by decide, by decide,
   escapeScriptTags_no_tag⟩

/-- C9 fixture: a `zenv` call that does not supply `clientSafePrefixes`
(empty spec, explicit empty source, backend context). -/
def c9opts : ZenvOptions := { env := some [] }

/-- C9 fixture: the environment object that call returns. -/
def c9env : EnvObject := mkEnvObject rtServer (validateSpecs rtServer [] [] c9opts) c9opts []

/-- C9 counterexample: when the `clientSafePrefixes` option is not
supplied, the returned environment does *not* carry the
`__clientSafePrefixes__` own property — the attachment is guarded by
`if (options.clientSafePrefixes)`, so the claim's "including when the
option was not supplied" fails: the property is absent (a read of it
yields `undefined`) and it is not among the own property names. -/
theorem c9_counterexample :
    zenv rtServer [] c9opts = .returned c9env ∧
    c9env.clientSafePrefixes = none ∧
    (ownPropertyNames c9env).contains "__clientSafePrefixes__" = false ∧
    (proxyGet c9env rtServer "__clientSafePrefixes__").result = .ok .undefined :=
  ⟨rfl, rfl, by decide, by decide⟩

/-- C4 fixture: empty-spec options with an explicit empty raw source. -/
def c4opts : ZenvOptions := { env := some [] }

/-- C4 fixture: the environment object constructed while the mode variable
reads `"development"`. -/
def c4env : EnvObject := mkEnvObject rtDevServer (validateSpecs rtDevServer [] [] c4opts) c4opts []

/-- C4 counterexample: the five derived booleans are stored at
construction, not recomputed per read. An environment constructed in
development mode, read after the mode variable has changed to
`"production"`, still reports `isProduction = false` and
`isDevelopment = true`, while the mode at read time is production — so a
read does not reflect the mode at read time. -/
theorem c4_counterexample :
    zenv rtDevServer [] c4opts = .returned c4env ∧
    (proxyGet c4env rtProdServer "isProduction").result = .ok (.bool false) ∧
    (proxyGet c4env rtProdServer "isDevelopment").result = .ok (.bool true) ∧
    rtProdServer.isProduction = true ∧
    rtProdServer.isDevelopment = false :=
  ⟨rfl, by decide, by decide, by decide, by decide⟩

/-- C3 fixture: a leaf validator declaring `client.expose = true` whose
parse output records the raw input it was invoked on. -/
def exposeTraceValidator : Validator :=
  { meta := some { client := some { expose := true } }
    parse := fun raw => .ok (.str ("parsed:" ++ raw.getD "missing")) }

/-- C3 fixture: front-end options with `serverOnlyPrefixes = ["SECRET_"]`. -/
def c3opts : ZenvOptions := { serverOnlyPrefixes := some ["SECRET_"] }

/-- C3 fixture: the spec `{SECRET_X: expose-true validator}`. -/
def c3specs : Spec := [("SECRET_X", .schema exposeTraceValidator)]

/-- C3 counterexample: `SECRET_X` matches the server-only prefix, so the
spec's effective exposure is false and the claim requires the front-end
resolver to skip it without reading the raw value; but the resolver's skip
decision never consults `serverOnlyPrefixes`, and the `expose: true`
client config makes it validate the key — the result holds the parse of
the raw value `"s"`, proving the raw value was read and the leaf validator
invoked. (The recorded metadata does mark the key `serverOnly` with
`expose` forced false.) -/
theorem c3_counterexample :
    specEffectiveExposure "SECRET_X" exposeTraceValidator [] ["SECRET_"] = false ∧
    (validateSpecs rtClient c3specs [("SECRET_X", "s")] c3opts).result =
      [("SECRET_X", .str "parsed:s")] ∧
    ((lookup (validateSpecs rtClient c3specs [("SECRET_X", "s")] c3opts).metadata
      "SECRET_X").map (fun m => m.serverOnly)) = some true :=
  ⟨by decide, by decide, by decide⟩

/-- The resolver is a per-key map: every spec entry contributes its value,
metadata, and failure record independently of every other entry, in
declaration order. -/
theorem validateSpecs_eq_perKey (rt : Runtime) (specs : Spec)
    (env : List (String × String)) (opts : ZenvOptions) :
    validateSpecs rt specs env opts =
      ⟨specs.filterMap (perKeyValue rt env opts),
       specs.filterMap (perKeyMeta rt opts),
       specs.filterMap (perKeyError rt env opts)⟩ := by
  induction specs with
  | nil => rfl
  | cons ke rest ih =>
    obtain ⟨key, entry⟩ := ke
    cases entry with
    | invalid =>
        simp [validateSpecs, List.filterMap_cons, perKeyValue, perKeyMeta,
          perKeyError, ih]
    | schema v =>
        by_cases hc :
          (rt.isClient && shouldSkipClient key v (opts.clientSafePrefixes.getD [])) = true
        · simp [validateSpecs, List.filterMap_cons, perKeyValue, perKeyMeta,
            perKeyError, hc, ih]
        · cases hp : v.parse (lookup env key) <;>
            simp [validateSpecs, List.filterMap_cons, perKeyValue, perKeyMeta,
              perKeyError, hc, hp, ih]

/-- C6: resolution never short-circuits — the resolver's output decomposes
key by key (each spec entry contributes its own value/metadata/failure
independently of the outcome at every other key, in declaration order), an
unrecognized validator entry becomes a per-key failure record rather than
a crash, and under an effective `onError = "throw"` with at least one
failure, `zenv` raises the single composite error carrying all the
collected failure records. -/
theorem c6_no_short_circuit (rt : Runtime) (specs : Spec) (opts : ZenvOptions)
    (h1 : opts.onError.getD rt.defaultErrorBehavior = .throw)
    (h2 : (validateSpecs rt specs (opts.env.getD rt.envSource) opts).errors ≠ []) :
    (∀ env, (validateSpecs rt specs env opts).errors =
      specs.filterMap (perKeyError rt env opts)) ∧
    (∀ env, (validateSpecs rt specs env opts).result =
      specs.filterMap (perKeyValue rt env opts)) ∧
    (∀ key env, perKeyError rt env opts (key, .invalid) =
      some (customError key (invalidValidatorMsg key))) ∧
    zenv rt specs opts =
      .thrown "Environment validation failed"
        ((validateSpecs rt specs (opts.env.getD rt.envSource) opts).errors) := by
  refine ⟨fun env => ?_, fun env => ?_, fun key env => rfl, ?_⟩
  · rw [validateSpecs_eq_perKey]
  · rw [validateSpecs_eq_perKey]
  · have hlen :
        0 < (validateSpecs rt specs (opts.env.getD rt.envSource) opts).errors.length :=
      List.length_pos.mpr h2
    simp only [zenv, h1]
    rw [if_pos hlen, if_pos (by simp)]

/-- C6 witness fixture: one unrecognized entry, one missing required key,
one valid key. -/
def c6wspecs : Spec :=
  [("BAD", .invalid), ("MISSING", .schema strRequired), ("GOOD", .schema strRequired)]

/-- C6 witness fixture: throw policy and a source providing only `GOOD`. -/
def c6wopts : ZenvOptions := { onError := some .throw, env := some [("GOOD", "g")] }

/-- Witness for C6: the composite error carries both failure records in
declaration order, and the valid key was still resolved. -/
theorem c6_no_short_circuit_witness :
    c6wopts.onError.getD rtServer.defaultErrorBehavior = .throw ∧
    (validateSpecs rtServer c6wspecs [("GOOD", "g")] c6wopts).errors =
      [customError "BAD" (invalidValidatorMsg "BAD"),
       ⟨[⟨"invalid_type", "Required", ["MISSING"]⟩]⟩] ∧
    lookup (validateSpecs rtServer c6wspecs [("GOOD", "g")] c6wopts).result "GOOD" =
      some (.str "g") ∧
    zenv rtServer c6wspecs c6wopts =
      .thrown "Environment validation failed"
        ((validateSpecs rtServer c6wspecs (c6wopts.env.getD rtServer.envSource) c6wopts).errors) :=
  ⟨by decide, by decide, by decide,
   (c6_no_short_circuit rtServer c6wspecs c6wopts (by decide) (by decide)).2.2.2⟩

/-- C7 (amended): every spec key carrying a *recognized* validator entry
has a metadata entry after resolution, whatever the validation outcome —
success, predicate rejection, or a front-end skip. A key whose entry is
not a recognized validator contributes a per-key failure record but no
metadata entry (the `Invalid validator` error is thrown before
`metadata.set` runs). -/
theorem c7_metadata_total_for_schema_entries (rt : Runtime) (specs : Spec)
    (env : List (String × String)) (opts : ZenvOptions) (key : String)
    (h : ∃ v, (key, SpecEntry.schema v) ∈ specs) :
    (lookup (validateSpecs rt specs env opts).metadata key).isSome = true ∧
    (∀ k, perKeyMeta rt opts (k, SpecEntry.invalid) = none ∧
      perKeyError rt env opts (k, SpecEntry.invalid) =
        some (customError k (invalidValidatorMsg k))) := by
  refine ⟨?_, fun k => ⟨rfl, rfl⟩⟩
  induction specs with
  | nil => simp at h
  | cons ke rest ih =>
    obtain ⟨v, hv⟩ := h
    rw [List.mem_cons] at hv
    obtain ⟨k', e'⟩ := ke
    rcases hv with heq | htail
    · obtain ⟨hk, he⟩ := Prod.mk.injEq .. ▸ heq
      subst hk; subst he
      by_cases hc :
        (rt.isClient && shouldSkipClient key v (opts.clientSafePrefixes.getD [])) = true
      · simp [validateSpecs, hc, lookup]
      · cases hp : v.parse (lookup env key) <;> simp [validateSpecs, hc, hp, lookup]
    · have ihr := ih ⟨v, htail⟩
      cases e' with
      | invalid => simpa [validateSpecs, lookup] using ihr
      | schema v' =>
          by_cases hk' : (k' == key) = true
          · by_cases hc :
              (rt.isClient && shouldSkipClient k' v' (opts.clientSafePrefixes.getD [])) = true
            · simp [validateSpecs, hc, lookup, hk']
            · cases hp : v'.parse (lookup env k') <;>
                simp [validateSpecs, hc, hp, lookup, hk']
          · by_cases hc :
              (rt.isClient && shouldSkipClient k' v' (opts.clientSafePrefixes.getD [])) = true
            · simpa [validateSpecs, hc, lookup, hk'] using ihr
            · cases hp : v'.parse (lookup env k') <;>
                simpa [validateSpecs, hc, hp, lookup, hk'] using ihr

/-- Witness for C7: a key whose required validator rejects the (missing)
raw value still receives a metadata entry. -/
theorem c7_metadata_witness :
    (lookup (validateSpecs rtServer
      [("FOO", SpecEntry.invalid), ("BAR", SpecEntry.schema strRequired)] [] {}).metadata
      "BAR").isSome = true :=
  (c7_metadata_total_for_schema_entries rtServer
    [("FOO", SpecEntry.invalid), ("BAR", SpecEntry.schema strRequired)] [] {} "BAR"
    ⟨strRequired, by simp⟩).1

/-- C3 (amended): on front-end context the resolver skips a key exactly
when it is neither auto-exposed by a `clientSafePrefixes` match nor
declared `client.expose === true` — `serverOnlyPrefixes` is not consulted
by the skip decision, so a server-only-prefixed key with `expose: true` is
still validated. A skipped key is never validated: its raw value is not
read (its resolver outcome is independent of the source), no failure is
recorded, and its metadata entry carries `serverOnly = true`. A
non-skipped key is validated exactly as on the backend (raw read, leaf
validator invoked), with `validateSingleSpec`'s metadata. -/
theorem c3_client_skip_rule (rt : Runtime) (key : String) (v : Validator)
    (opts : ZenvOptions) (h : rt.isClient = true) :
    (shouldSkipClient key v (opts.clientSafePrefixes.getD []) =
      (!((opts.clientSafePrefixes.getD []).length > 0 &&
          startsWithAny key (opts.clientSafePrefixes.getD [])) &&
        !(((v.meta.bind (fun m => m.client)).map (fun c => c.expose)) == some true))) ∧
    (shouldSkipClient key v (opts.clientSafePrefixes.getD []) = true →
      ∀ env,
        perKeyValue rt env opts (key, .schema v) = none ∧
        perKeyError rt env opts (key, .schema v) = none ∧
        perKeyMeta rt opts (key, .schema v) = some (key, skippedMeta v) ∧
        (skippedMeta v).serverOnly = true) ∧
    (shouldSkipClient key v (opts.clientSafePrefixes.getD []) = false →
      ∀ env,
        perKeyValue rt env opts (key, .schema v) =
          (match v.parse (lookup env key) with
           | .ok val => some (key, val)
           | .error _ => none) ∧
        perKeyError rt env opts (key, .schema v) =
          (match v.parse (lookup env key) with
           | .ok _ => none
           | .error e => some (enhanceError key e)) ∧
        perKeyMeta rt opts (key, .schema v) = some (key, mkFinalMeta key v opts)) := by
  refine ⟨?_, ?_, ?_⟩
  · rcases v with ⟨meta, parse⟩
    rcases meta with _ | m
    · rfl
    · rcases m with ⟨client, auto, so⟩
      rcases client with _ | c
      · rfl
      · rcases c with ⟨ex, tr, d, dd⟩
        cases ex <;> rfl
  · intro hskip env
    refine ⟨?_, ?_, ?_, rfl⟩ <;> simp [perKeyValue, perKeyError, perKeyMeta, h, hskip]
  · intro hskip env
    refine ⟨?_, ?_, ?_⟩ <;> simp [perKeyValue, perKeyError, perKeyMeta, h, hskip]

/-- Witness for C3 (amended): on the front end a hidden key's outcome is
the same whatever the raw source holds. -/
theorem c3_client_skip_rule_witness :
    shouldSkipClient "SECRET" strRequired [] = true ∧
    perKeyValue rtClient [("SECRET", "x")] {} ("SECRET", .schema strRequired) = none ∧
    perKeyError rtClient [("SECRET", "x")] {} ("SECRET", .schema strRequired) = none :=
  ⟨by decide,
   ((c3_client_skip_rule rtClient "SECRET" strRequired {} rfl).2.1 (by decide)
     [("SECRET", "x")]).1,
   ((c3_client_skip_rule rtClient "SECRET" strRequired {} rfl).2.1 (by decide)
     [("SECRET", "x")]).2.1⟩

/-- C4 (amended): the five derived booleans are not recomputed per read —
they are computed once, in `addEnvAccessors`, from
`env.NODE_ENV ?? rawEnv.NODE_ENV ?? runtime.nodeEnv` at construction time,
stored as non-enumerable value properties, and every read (through the
accessor branch of the `get` trap) returns the stored value, identically
for every read-time runtime state. -/
theorem c4_accessors_stored (st : EnvObject) (rt rt' : Runtime) (p : String)
    (hp : p ∈ accessorProps) :
    proxyGet st rt p = ⟨.ok (targetGet st p), false, false⟩ ∧
    proxyGet st rt p = proxyGet st rt' p ∧
    (∀ out opts raw rtB,
      (mkEnvObject rtB out opts raw).isProduction =
        (constructionNodeEnv out.result raw rtB == "production") ∧
      (mkEnvObject rtB out opts raw).isDevelopment =
        (constructionNodeEnv out.result raw rtB == "development") ∧
      (mkEnvObject rtB out opts raw).isTest =
        (constructionNodeEnv out.result raw rtB == "test")) := by
  simp only [accessorProps, List.mem_cons, List.not_mem_nil, or_false] at hp
  rcases hp with h | h | h | h | h <;> subst h <;>
    exact ⟨rfl, rfl, fun out opts raw rtB => ⟨rfl, rfl, rfl⟩⟩

/-- Witness for C4 (amended): a stored `isProduction` read is the same
under a development-mode and a production-mode read-time runtime. -/
theorem c4_accessors_stored_witness :
    proxyGet c4env rtProdServer "isProduction" =
      ⟨.ok (targetGet c4env "isProduction"), false, false⟩ ∧
    proxyGet c4env rtProdServer "isProduction" =
      proxyGet c4env rtDevServer "isProduction" :=
  ⟨(c4_accessors_stored c4env rtProdServer rtDevServer "isProduction" (by decide)).1,
   (c4_accessors_stored c4env rtProdServer rtDevServer "isProduction" (by decide)).2.1⟩

/-- C9 (amended): when — and only when — the `clientSafePrefixes` option is
supplied, every environment object `zenv` returns carries the own,
non-enumerable, non-writable `__clientSafePrefixes__` property recording
the configured prefixes (writes are rejected unconditionally by the `set`
trap), and the bootstrap generator called without an explicit prefix list
behaves exactly as if called with the retained list. When the option is
not supplied, the property is absent and the generator's fallback is the
empty list. -/
theorem c9_prefixes_retained (rt : Runtime) (specs : Spec) (opts : ZenvOptions)
    (ps : List String) (e : EnvObject)
    (hps : opts.clientSafePrefixes = some ps)
    (hret : zenv rt specs opts = .returned e) :
    e.clientSafePrefixes = some ps ∧
    "__clientSafePrefixes__" ∈ ownPropertyNames e ∧
    (∀ rt2, rt2.isClient = false →
      getClientEnvScript rt2 e none = getClientEnvScript rt2 e (some ps)) := by
  have he : mkEnvObject rt (validateSpecs rt specs (opts.env.getD rt.envSource) opts)
      opts (opts.env.getD rt.envSource) = e := by
    simp only [zenv] at hret
    split at hret
    · split at hret
      · cases hret
      · split at hret
        · cases hret
        · injection hret
    · injection hret
  subst he
  refine ⟨by simp [mkEnvObject, hps], ?_, ?_⟩
  · simp [ownPropertyNames, mkEnvObject, hps]
  · intro rt2 h2
    simp [getClientEnvScript, h2, mkEnvObject, hps]

/-- C9 witness fixture: options that do supply a prefix list. -/
def c9wopts : ZenvOptions := { clientSafePrefixes := some ["PUB_"], env := some [] }

/-- C9 witness fixture: the environment that call returns. -/
def c9wenv : EnvObject :=
  mkEnvObject rtServer (validateSpecs rtServer [] [] c9wopts) c9wopts []

/-- Witness for C9 (amended): with `clientSafePrefixes = ["PUB_"]` supplied,
the returned environment retains the list and the generator recovers it. -/
theorem c9_prefixes_retained_witness :
    c9wenv.clientSafePrefixes = some ["PUB_"] ∧
    "__clientSafePrefixes__" ∈ ownPropertyNames c9wenv :=
  ⟨(c9_prefixes_retained rtServer [] c9wopts ["PUB_"] c9wenv rfl rfl).1,
   (c9_prefixes_retained rtServer [] c9wopts ["PUB_"] c9wenv rfl rfl).2.1⟩

/-- C10: on a front-end read of an exposed key, the configured client
transform runs only when the value about to be returned — after the
client-default substitution stage — is not `undefined`; when that value is
`undefined` the read returns `undefined` without calling the transform, so
a transform never observes `undefined` input, and when it does run its
input is exactly the substituted value. -/
theorem c10_transform_guard (st : EnvObject) (rt : Runtime) (prop : String)
    (h1 : rt.isClient = true)
    (h2 : inspectables.contains prop = false)
    (h3 : accessorProps.contains prop = false)
    (h4 : (!propExists st prop && st.strict) = false)
    (h5 : readExposed st prop = true) :
    (clientSubstituted st rt prop = .undefined →
      proxyGet st rt prop = ⟨.ok .undefined, false, false⟩) ∧
    ((proxyGet st rt prop).transformCalled = true →
      clientSubstituted st rt prop ≠ .undefined) ∧
    (∀ f, ((lookup st.metadata prop).bind (fun m => m.client)).bind
        (fun c => c.transform) = some f →
      clientSubstituted st rt prop ≠ .undefined →
      proxyGet st rt prop = ⟨.ok (f (clientSubstituted st rt prop)), true, false⟩) := by
  simp only [proxyGet, h2, h3, h4, h1, h5, Bool.false_eq_true, if_false,
    Bool.not_true, ite_true, ite_false]
  cases ht : ((lookup st.metadata prop).bind (fun m => m.client)).bind (fun c => c.transform) with
  | none =>
      refine ⟨fun hu => ?_, fun hc => ?_, fun f hf => ?_⟩
      · simp [hu]
      · simp at hc
      · cases hf
  | some f =>
      by_cases hv : clientSubstituted st rt prop = .undefined
      · refine ⟨fun _ => ?_, fun hc => ?_, fun g hg hne => absurd hv hne⟩
        · simp [hv]
        · simp [hv] at hc
      · refine ⟨fun hu => absurd hu hv, fun _ => hv, fun g hg hne => ?_⟩
        cases hg
        simp [hv]

/-- C10 witness fixture: an exposed key present with an `undefined` value,
no raw entry, a client config carrying a transform but no client default. -/
def c10env : EnvObject :=
  { values := [("PUB", .undefined)]
    isDevelopment := false, isDev := false, isProduction := true, isProd := true
    isTest := false
    clientSafePrefixes := none
    metadata := [("PUB",
      { client := some { expose := true, transform := some (fun v => v) } })]
    strict := true
    onClientAccessError := .ignore
    rawEnv := [] }

/-- Witness for C10: the substituted value is `undefined`, so the read
returns `undefined` and the transform is not invoked. -/
theorem c10_transform_guard_witness :
    proxyGet c10env rtClient "PUB" = ⟨.ok .undefined, false, false⟩ :=
  (c10_transform_guard c10env rtClient "PUB" rfl (by decide) (by decide)
    (by decide) (by decide)).1 (by decide)

end Zenvalid
